import Mathlib

/-!
Verification of the LinkedIn Gmail job-application parser.

This file gives a shallow embedding of the core email-to-record extraction
and reconciliation engine of the repository:

  * `src/parsers/linkedin/email_parsers.py`
    (`get_plain_text_body`, `get_html_body`, `parse_applied_info`,
     `parse_viewed_rejected_info`, `generate_comment`), and
  * `src/parsers/linkedin/processor.py`
    (`get_status_priority`, and the two processing phases of
     `process_gmail_labels_to_csv`: the `Applied` seeding loop and the
     `Viewed`/`Rejected` reconciliation loop).

Modelling notes:

  * Python `str` values are Lean `String`s (lists of unicode characters).
    `str.strip()` / `str.lower()` / `str.splitlines()` are modelled over the
    ASCII/Latin-1 whitespace and letter ranges actually exercised by the
    program (`pyStrip`, `pyLower`, `pySplitlines` below).
  * The four `re.search` calls of the parsers are embedded through a small
    backtracking regular-expression engine (`mRE`/`reSearch`) whose match
    enumeration order reproduces Python's leftmost, lazy/greedy backtracking
    semantics for the four concrete patterns involved (compiled by hand into
    the `RE` syntax below).  `re.IGNORECASE` is modelled by comparing
    characters through `pyLowerChar`.
  * MIME messages are modelled by the tree `MimeMsg`; a multipart container
    carries the subtype of its `multipart/...` content type, matching the
    invariant of Python's `email` library that `is_multipart()` messages
    have a `multipart/...` content type.  Byte decoding (UTF-8 with a
    Latin-1 fallback) is abstracted: a part directly carries its decoded
    text content.
  * I/O that happens around the core (Gmail fetching, CSV writing, progress
    printing, `datetime.now()` timestamps, output file names) is outside the
    model: messages arrive as already-fetched values, and the wall-clock
    timestamp / source-file / date-range columns of failure rows are omitted
    from `FailureRec`.  The email-header date is carried already mapped to
    its `YYYY-MM-DD`-or-empty form (the output of `parse_date_header`,
    whose `dateutil` internals are external library code).
-/

namespace LinkedInJobParser

/-! ## Python string primitives -/

/-- Characters treated as whitespace by Python's `str.strip()` / regex `\s`
(the ASCII/Latin-1 part of the unicode whitespace class: TAB, LF, VT, FF,
CR, FS, GS, RS, US, SPACE, NEL, NBSP). -/
def pyWsChar (c : Char) : Bool :=
  c.toNat ∈ ([9, 10, 11, 12, 13, 28, 29, 30, 31, 32, 133, 160] : List Nat)

/-- Python `str.lower()` on one character (ASCII range). -/
def pyLowerChar (c : Char) : Char :=
  if 65 ≤ c.toNat ∧ c.toNat ≤ 90 then Char.ofNat (c.toNat + 32) else c

/-- Python `str.lower()` (ASCII model). -/
def pyLower (s : String) : String := ⟨s.data.map pyLowerChar⟩

/-- Strip Python whitespace from the front and the back of a character list. -/
def pyStripList (l : List Char) : List Char :=
  (((l.dropWhile pyWsChar).reverse.dropWhile pyWsChar)).reverse

/-- Python `str.strip()` with no arguments. -/
def pyStrip (s : String) : String := ⟨pyStripList s.data⟩

/-- Contiguous-sublist test on character lists. -/
def containsSub (needle : List Char) : List Char → Bool
  | [] => needle.isEmpty
  | x :: t => needle.isPrefixOf (x :: t) || containsSub needle t

/-- Python's substring test `needle in hay`. -/
def isSub (needle hay : String) : Bool := containsSub needle.data hay.data

/-- Python `str.replace(pat, repl)` on character lists: replace all
non-overlapping occurrences, left to right.  (For the empty pattern —
never used here — this returns the list unchanged.) -/
def replaceListAux (pat repl : List Char) : Nat → List Char → List Char
  | _, [] => []
  | 0, l => l
  | fuel + 1, x :: rest =>
    if pat.isPrefixOf (x :: rest) ∧ pat ≠ [] then
      repl ++ replaceListAux pat repl fuel (rest.drop (pat.length - 1))
    else x :: replaceListAux pat repl fuel rest

/-- Python `s.replace(pat, repl)`: replace all non-overlapping occurrences,
left to right.  The fuel `s.length` suffices because every step consumes at
least one character. -/
def pyReplace (s pat repl : String) : String :=
  ⟨replaceListAux pat.data repl.data s.data.length s.data⟩

/-- Python `s.split(sep)` for a one-character separator. -/
def splitOnChar (c : Char) : List Char → List (List Char)
  | [] => [[]]
  | x :: rest =>
    if x = c then [] :: splitOnChar c rest
    else
      match splitOnChar c rest with
      | [] => [[x]]
      | l :: ls => (x :: l) :: ls

/-- Characters at which Python `str.splitlines()` breaks a line
(LF, CR, VT, FF, FS, GS, RS, NEL, LS, PS; CRLF is handled as one break). -/
def lineBreakChar (c : Char) : Bool :=
  c.toNat ∈ ([10, 13, 11, 12, 28, 29, 30, 133, 8232, 8233] : List Nat)

/-- Worker for `pySplitlines`: `acc` holds the current line, reversed. -/
def splitlinesAux : List Char → List Char → List (List Char)
  | [], acc => if acc.isEmpty then [] else [acc.reverse]
  | '\r' :: '\n' :: rest, acc => acc.reverse :: splitlinesAux rest []
  | c :: rest, acc =>
    if lineBreakChar c then acc.reverse :: splitlinesAux rest []
    else splitlinesAux rest (c :: acc)

/-- Python `str.splitlines()`: no trailing empty line for a trailing
terminator. -/
def pySplitlines (s : String) : List String :=
  (splitlinesAux s.data []).map (fun l => ⟨l⟩)

/-! ## A small backtracking regex engine

Just enough of Python `re` to express the four patterns used by
`parse_viewed_rejected_info`: literals (case-insensitive, for
`re.IGNORECASE`), negated character classes, `\s`, `.` (no `re.DOTALL` in
these patterns, so `.` excludes LF), concatenation, greedy and lazy stars,
and numbered capture groups. -/

inductive RE where
  | eps
  | lit (c : Char)
  | cls (neg : Bool) (cs : List Char)
  | ws
  | nonNl
  | seq (a b : RE)
  | starG (a : RE)
  | starL (a : RE)
  | group (idx : Nat) (a : RE)
deriving Repr

/-- Case-insensitive character comparison (`re.IGNORECASE`, ASCII model). -/
def ciEq (a b : Char) : Bool := pyLowerChar a == pyLowerChar b

/-- Capture environment: group index to captured characters; the first
binding for an index wins (later bindings are shadowed, never needed for
the patterns at hand). -/
abbrev Caps := List (Nat × List Char)

/-- Structural size of a regex, used to compute an exhaustive fuel. -/
def sizeRE : RE → Nat
  | .eps => 1
  | .lit _ => 1
  | .cls _ _ => 1
  | .ws => 1
  | .nonNl => 1
  | .seq a b => sizeRE a + sizeRE b + 1
  | .starG a => sizeRE a + 1
  | .starL a => sizeRE a + 1
  | .group _ a => sizeRE a + 1

/-- All ways a regex can match a prefix of `s`, as `(remaining suffix,
captures)` pairs, in Python's backtracking preference order (the first
element is the match `re.search` would pick at this position).  The
recursion is structural on `fuel` (so that it evaluates inside the
kernel); with fuel `0` no match is reported.  Any call chain descends into
a strict subpattern or re-enters a star after consuming at least one
character, so between two star re-entries at most `sizeRE re` levels pass
and a fuel of `(sizeRE re + 1) * (s.length + 2)` is exhaustive. -/
def mRE : Nat → RE → List Char → Caps → List (List Char × Caps)
  | 0, _, _, _ => []
  | fuel + 1, re, s, caps =>
    match re with
    | .eps => [(s, caps)]
    | .lit c =>
      match s with
      | [] => []
      | x :: rest => if ciEq x c then [(rest, caps)] else []
    | .cls neg cs =>
      match s with
      | [] => []
      | x :: rest => if (cs.contains x) != neg then [(rest, caps)] else []
    | .ws =>
      match s with
      | [] => []
      | x :: rest => if pyWsChar x then [(rest, caps)] else []
    | .nonNl =>
      match s with
      | [] => []
      | x :: rest => if x != '\n' then [(rest, caps)] else []
    | .seq a b =>
      (mRE fuel a s caps).flatMap (fun p => mRE fuel b p.1 p.2)
    | .starG a =>
      ((mRE fuel a s caps).flatMap (fun p =>
        if p.1.length < s.length then mRE fuel (.starG a) p.1 p.2 else [])) ++ [(s, caps)]
    | .starL a =>
      (s, caps) :: ((mRE fuel a s caps).flatMap (fun p =>
        if p.1.length < s.length then mRE fuel (.starL a) p.1 p.2 else []))
    | .group i a =>
      (mRE fuel a s caps).map (fun p => (p.1, (i, s.take (s.length - p.1.length)) :: p.2))

/-- The exhaustive fuel for matching `re` against a suffix of length `n`. -/
def reFuel (re : RE) (n : Nat) : Nat := (sizeRE re + 1) * (n + 2)

/-- `re.search` scanning: try each start position left to right. -/
def reSearchAux (re : RE) : List Char → Option Caps
  | [] =>
    match mRE (reFuel re 0) re [] [] with
    | p :: _ => some p.2
    | [] => none
  | x :: rest =>
    match mRE (reFuel re (rest.length + 1)) re (x :: rest) [] with
    | p :: _ => some p.2
    | [] => reSearchAux re rest

/-- Python `re.search(pattern, s)`, returning the captures of the match. -/
def reSearch (re : RE) (s : String) : Option Caps := reSearchAux re s.data

/-- `match.group(i)` (groups of the patterns at hand always participate). -/
def getCap (caps : Caps) (i : Nat) : String :=
  match caps.lookup i with
  | some v => ⟨v⟩
  | none => ""

/-- Concatenation of a list of regexes. -/
def seqs (l : List RE) : RE := l.foldr .seq .eps

/-- A case-insensitive literal string. -/
def lits (s : String) : RE := seqs (s.data.map .lit)

/-- Greedy `+`. -/
def plusG (a : RE) : RE := .seq a (.starG a)

/-- Lazy `+?`. -/
def plusL (a : RE) : RE := .seq a (.starL a)

/-! ## MIME messages and the body extractors
(`email_parsers.get_plain_text_body` / `get_html_body`) -/

/-- A MIME message: either a single part (with its content type, optional
`Content-Disposition` header, and decoded text content), or a multipart
container (whose content type is `multipart/` followed by the stored
subtype) with its list of sub-messages. -/
inductive MimeMsg where
  | leaf (ctype : String) (disposition : Option String) (content : String)
  | multi (subtype : String) (disposition : Option String) (parts : List MimeMsg)
deriving Repr

/-- `part.get_content_type()`. -/
def ctypeOf : MimeMsg → String
  | .leaf c _ _ => c
  | .multi s _ _ => "multipart/" ++ s

/-- Decoded payload of a part (empty for a multipart container, whose
decoded payload is absent). -/
def contentOf : MimeMsg → String
  | .leaf _ _ b => b
  | .multi _ _ _ => ""

/-- `part.get('Content-Disposition')`. -/
def dispOf : MimeMsg → Option String
  | .leaf _ d _ => d
  | .multi _ d _ => d

/-- Python `str(part.get('Content-Disposition'))`: `None` renders as the
string `"None"`. -/
def dispStr : Option String → String
  | none => "None"
  | some s => s

mutual

/-- `msg.walk()`: the message itself, then its parts, depth first. -/
def walk : MimeMsg → List MimeMsg
  | .leaf c d b => [.leaf c d b]
  | .multi s d parts => .multi s d parts :: walkList parts

/-- `walk` mapped over a list of sub-messages. -/
def walkList : List MimeMsg → List MimeMsg
  | [] => []
  | m :: ms => walk m ++ walkList ms

end

/-- The per-part test of the extractor loops:
`part.get_content_type() == kind and 'attachment' not in
str(part.get('Content-Disposition'))`. -/
def isMatchingPart (kind : String) (m : MimeMsg) : Bool :=
  ctypeOf m == kind && !(isSub "attachment" (dispStr (dispOf m)))

/-- `email_parsers.get_plain_text_body`: on a multipart message, the first
`text/plain` non-attachment part of the walk; on a non-multipart message,
the decoded payload (with no content-type or disposition check). -/
def get_plain_text_body (msg : MimeMsg) : String :=
  match msg with
  | .multi s d parts =>
    match (walk (.multi s d parts)).find? (isMatchingPart "text/plain") with
    | some p => contentOf p
    | none => ""
  | .leaf _ _ content => content

/-- `email_parsers.get_html_body`: on a multipart message, the first
`text/html` non-attachment part of the walk; on a non-multipart message,
the decoded payload if the content type is `text/html`, else `""`. -/
def get_html_body (msg : MimeMsg) : String :=
  match msg with
  | .multi s d parts =>
    match (walk (.multi s d parts)).find? (isMatchingPart "text/html") with
    | some p => contentOf p
    | none => ""
  | .leaf ctype _ content => if ctype = "text/html" then content else ""

/-- Modelled from the spec (section 4.1), for comparison with the code:
"given a raw message, walk its MIME structure (possibly multi-part) and
return the first part whose content type matches the requested kind
(text/plain or text/html) and whose disposition is not attachment ...
Returns empty string if no matching part exists." -/
def firstMatchingBody (kind : String) (msg : MimeMsg) : String :=
  match (walk msg).find? (isMatchingPart kind) with
  | some p => contentOf p
  | none => ""

/-! ## The Applied parser (`email_parsers.parse_applied_info`) -/

/-- The parsed field tuple of an `Applied` notification. -/
structure AppliedFields where
  jobTitle : String
  companyName : String
  location : String
deriving Repr, DecidableEq

/-- The literal anchor phrase of `Applied` plain-text bodies. -/
def appliedAnchor : String := "Your application was sent to"

/-- The per-line filter of `parse_applied_info`:
`[line.strip() for line in ... if line.strip()]`. -/
def stripNonEmpty (l : String) : Option String :=
  let s := pyStrip l
  if s = "" then none else some s

/-- `email_parsers.parse_applied_info`.  The Python function raises
`ValueError` when a mandatory field is missing; this is embedded as
`Except String`, carrying the exception message. -/
def parse_applied_info (plain_text_body : String) : Except String AppliedFields :=
  let lines := pySplitlines plain_text_body
  let fields : String × String × String :=
    match lines.findIdx? (fun line => isSub appliedAnchor line) with
    | none => ("", "", "")
    | some start_index =>
      let relevant_lines := (lines.drop (start_index + 1)).filterMap stripNonEmpty
      match relevant_lines with
      | jt :: cn :: loc :: _ => (jt, cn, loc)
      | _ => ("", "", "")
  let (job_title, company_name, location) := fields
  if job_title ≠ "" ∧ company_name ≠ "" ∧ location ≠ "" then
    .ok ⟨job_title, company_name, location⟩
  else
    let missing := ([("Job Title", job_title), ("Company Name", company_name),
      ("Location", location)].filterMap (fun p => if p.2 = "" then some p.1 else none))
    .error ("Could not parse required fields. Missing: " ++ String.intercalate ", " missing)

/-! ## The Viewed/Rejected parser
(`email_parsers.parse_viewed_rejected_info`) -/

/-- Result of `parse_viewed_rejected_info`; `error` is the `"error"` key of
the returned dict (`None` on success). -/
structure PVRResult where
  jobTitle : String
  companyName : String
  location : String
  error : Option String
deriving Repr, DecidableEq

/-- Pattern `<p[^>]*?>\s*([^<]+?)\s*·\s*(.*?)\s*</p>` (IGNORECASE). -/
def companyLocationRe : RE := seqs [lits "<p", .starL (.cls true ['>']), .lit '>', .starG .ws,
  .group 1 (plusL (.cls true ['<'])), .starG .ws, .lit '·', .starG .ws,
  .group 2 (.starL .nonNl), .starG .ws, lits "</p>"]

/-- Pattern `color:\s*#0a66c2;">\s*([^<]+?)\s*<` (IGNORECASE). -/
def jobTitleRe : RE := seqs [lits "color:", .starG .ws, lits "#0a66c2;\">", .starG .ws,
  .group 1 (plusL (.cls true ['<'])), .starG .ws, .lit '<']

/-- Pattern `Your application was viewed by\s+(.*)` (IGNORECASE). -/
def viewedByRe : RE := seqs [lits "Your application was viewed by", plusG .ws,
  .group 1 (.starG .nonNl)]

/-- Pattern `Your application to\s+(.*?)\s+at\s+(.*)` (IGNORECASE). -/
def applicationToRe : RE := seqs [lits "Your application to", plusG .ws,
  .group 1 (.starL .nonNl), plusG .ws, lits "at", plusG .ws, .group 2 (.starG .nonNl)]

/-- The candidate-extraction stage of `parse_viewed_rejected_info`
(lines 94-114 of `email_parsers.py`): the two HTML regexes and the two
subject fallbacks, before the final unescape/strip post-processing.
Returns `(job_title, company_name, location)`. -/
def pvrRaw (html_content subject : String) : String × String × String :=
  let cl := reSearch companyLocationRe html_content
  let company_name := match cl with
    | some caps => pyStrip (getCap caps 1)
    | none => ""
  let location := match cl with
    | some caps => pyStrip (getCap caps 2)
    | none => ""
  let job_title := match reSearch jobTitleRe html_content with
    | some caps => pyStrip (getCap caps 1)
    | none => ""
  let company_name :=
    if isSub "viewed by" (pyLower subject) then
      match reSearch viewedByRe subject with
      | some caps => if company_name = "" then pyStrip (getCap caps 1) else company_name
      | none => company_name
    else company_name
  let tc : String × String :=
    if isSub "application to" (pyLower subject) && isSub "at" (pyLower subject) then
      match reSearch applicationToRe subject with
      | some caps =>
        ((if job_title = "" then pyStrip (getCap caps 1) else job_title),
         (if company_name = "" then pyStrip (getCap caps 2) else company_name))
      | none => (job_title, company_name)
    else (job_title, company_name)
  (tc.1, tc.2, location)

/-- The post-processing applied to each nonempty candidate:
`x.replace('&amp;', '&').strip()` (no-op on the empty string, exactly as
the guarded Python assignment `if x: x = ...`). -/
def ampStrip (s : String) : String :=
  if s ≠ "" then pyStrip (pyReplace s "&amp;" "&") else s

/-- `email_parsers.parse_viewed_rejected_info`: candidate extraction,
post-processing of each candidate, and the critical company check. -/
def parse_viewed_rejected_info (html_content subject : String) : PVRResult :=
  let raw := pvrRaw html_content subject
  let job_title := ampStrip raw.1
  let company_name := ampStrip raw.2.1
  let location := ampStrip raw.2.2
  let error_message : Option String :=
    if company_name = "" then
      some "Critical parse failure: Could not determine Company Name from HTML or Subject."
    else none
  ⟨job_title, company_name, location, error_message⟩

/-! ## The record reconciler
(`processor.process_gmail_labels_to_csv`, phases 1 and 2) -/

/-- `processor.get_status_priority`:
`{"Rejected": 3, "Viewed": 2, "Applied": 1}.get(status, 0)`. -/
def get_status_priority (status : String) : Nat :=
  if status = "Rejected" then 3
  else if status = "Viewed" then 2
  else if status = "Applied" then 1
  else 0

/-- `processor.generate_comment`. -/
def generate_comment (subject : String) : String :=
  if subject ≠ "" then "Email regarding: " ++ subject
  else "No subject provided for comment."

/-- An entry of the `job_applications` dict, field for field. -/
structure AppRecord where
  companyName : String
  jobTitle : String
  location : String
  status : String
  date : String
  metadataSubject : String
  comment : String
deriving Repr, DecidableEq

/-- The deduplication key `(company.lower().strip(), title.lower().strip())`. -/
abbrev AppKey := String × String

/-- One component of the key: `s.lower().strip()`. -/
def normalizeKeyPart (s : String) : String := pyStrip (pyLower s)

/-- The key built at `processor.py` lines 208 and 268. -/
def applicationKey (company title : String) : AppKey :=
  (normalizeKeyPart company, normalizeKeyPart title)

/-- The `job_applications` dict, as an insertion-ordered association list. -/
abbrev AppMap := List (AppKey × AppRecord)

/-- Dict lookup `m.get(k)`. -/
def amLookup (m : AppMap) (k : AppKey) : Option AppRecord :=
  match m with
  | [] => none
  | (k', r) :: rest => if k' = k then some r else amLookup rest k

/-- Dict write `m[k] = r`: replace in place if present, else append. -/
def amInsert (m : AppMap) (k : AppKey) (r : AppRecord) : AppMap :=
  match m with
  | [] => [(k, r)]
  | (k', r') :: rest => if k' = k then (k, r) :: rest else (k', r') :: amInsert rest k r

/-- One row of the failure log.  The wall-clock `Timestamp` and the
`Source_File` / `Date_Range` columns (derived from output file names) are
outside the model and omitted; `Row Number` / `Total Emails` are only
present for phase-1 failures. -/
structure FailureRec where
  emailId : String
  label : String
  rowNumber : Option Nat
  totalEmails : Option Nat
  reason : String
  date : String
  companyName : String
  jobTitle : String
  location : String
  status : String
  metadata : String
  comment : String
deriving Repr, DecidableEq

/-- The reconciler state: the applications map and the failure log. -/
abbrev ProcState := AppMap × List FailureRec

/-- Decimal value of one digit character. -/
def digitVal? (c : Char) : Option Nat :=
  if 48 ≤ c.toNat ∧ c.toNat ≤ 57 then some (c.toNat - 48) else none

/-- Python `int()` on a plain digit string (the only shape
`parse_date_header` produces for the year part); anything else raises,
i.e. yields `none`. -/
def digitsToNatAux : List Char → Nat → Option Nat
  | [], acc => some acc
  | c :: rest, acc =>
    match digitVal? c with
    | some d => digitsToNatAux rest (acc * 10 + d)
    | none => none

/-- The year test of the date filter: `int(date_str.split('-')[0])`. -/
def yearOf (date_str : String) : Option Nat :=
  match date_str.data.takeWhile (fun c => c != '-') with
  | [] => none
  | l => digitsToNatAux l 0

/-- Outcome of `if date_str and int(date_str.split('-')[0]) < 2024:
continue` inside the `try` block: proceed, skip the message, or raise
(when `int()` cannot parse the year part). -/
inductive DateCheck where
  | proceed
  | skip
  | err
deriving Repr, DecidableEq

/-- The date filter of both phases (`processor.py` lines 201 and 257). -/
def dateCheck (date_str : String) : DateCheck :=
  if date_str = "" then .proceed
  else
    match yearOf date_str with
    | some y => if y < 2024 then .skip else .proceed
    | none => .err

/-- A fetched `Applied`-label message as it reaches the phase-1 loop body:
its Gmail id, its subject header (absent headers are `None`), its date
header already mapped through `parse_date_header` (so `YYYY-MM-DD` or
empty), and its MIME document. -/
structure AppliedMsg where
  id : String
  subject : Option String
  dateStr : String
  mime : MimeMsg

/-- `msg_full['subject'] or "No Subject"` (Python `or`: `None` and the
empty string both fall back). -/
def phase1Subject (m : AppliedMsg) : String :=
  match m.subject with
  | some s => if s = "" then "No Subject" else s
  | none => "No Subject"

/-- The failure row appended by the phase-1 `except` handler. -/
def appliedFailure (m : AppliedMsg) (index total : Nat) (reason date_str subject comment :
    String) : FailureRec :=
  { emailId := m.id, label := "LinkedIn/Applied", rowNumber := some index,
    totalEmails := some total, reason := reason, date := date_str,
    companyName := "N/A", jobTitle := "N/A", location := "N/A",
    status := "Applied", metadata := subject, comment := comment }

/-- One iteration of the phase-1 loop (`processor.py` lines 191-234):
parse an `Applied` email and fold it into the state.  Parse failures are
logged and processing continues (the failure-CSV write in the handler is
I/O, outside the model). -/
def phase1Step (total : Nat) (st : ProcState) (im : Nat × AppliedMsg) : ProcState :=
  let (index, m) := im
  let subject := phase1Subject m
  let date_str := m.dateStr
  let comment := generate_comment subject
  match dateCheck date_str with
  | .skip => st
  | .err =>
    (st.1, st.2 ++ [appliedFailure m index total "invalid literal for int() with base 10"
      date_str subject comment])
  | .proceed =>
    let body := get_plain_text_body m.mime
    if body = "" then
      (st.1, st.2 ++ [appliedFailure m index total "No plain text body found."
        date_str subject comment])
    else
      match parse_applied_info body with
      | .error e =>
        (st.1, st.2 ++ [appliedFailure m index total e date_str subject comment])
      | .ok parsed_info =>
        let key := applicationKey parsed_info.companyName parsed_info.jobTitle
        (amInsert st.1 key
          { companyName := parsed_info.companyName, jobTitle := parsed_info.jobTitle,
            location := parsed_info.location, status := "Applied", date := date_str,
            metadataSubject := subject, comment := comment }, st.2)

/-- `enumerate(messages, 1)`. -/
def enumerateFrom (n : Nat) : List α → List (Nat × α)
  | [] => []
  | x :: xs => (n, x) :: enumerateFrom (n + 1) xs

/-- The whole phase-1 loop over the fetched `Applied` messages. -/
def runPhase1 (msgs : List AppliedMsg) (st : ProcState) : ProcState :=
  (enumerateFrom 1 msgs).foldl (phase1Step msgs.length) st

/-- A fetched `Viewed`/`Rejected`-label message as it reaches the phase-2
loop body (same conventions as `AppliedMsg`). -/
structure VRMsg where
  id : String
  subject : Option String
  dateStr : String
  mime : MimeMsg

/-- `label_name.split('/')[-1]`. -/
def lastSegment (label : String) : String :=
  ⟨(splitOnChar '/' label.data).getLastD []⟩

/-- The cross-time search for a better location (`processor.py` lines
280-303): re-parse every `Applied` email (here: the list of their MIME
documents, fetched without a date filter) and take the location of the
first one whose key matches.  Inner parse failures are skipped. -/
def searchAppliedLocation (appliedAll : List MimeMsg) (key : AppKey) : Option String :=
  appliedAll.findSome? (fun mm =>
    let applied_body := get_plain_text_body mm
    if applied_body = "" then none
    else
      match parse_applied_info applied_body with
      | .error _ => none
      | .ok p =>
        if applicationKey p.companyName p.jobTitle = key ∧ p.location ≠ "" then
          some p.location
        else none)

/-- `better_location` of the unmatched branch: the parsed location, unless
it is missing or generic, in which case the result of the cross-time
search (falling back to the parsed location when the search finds
nothing). -/
def betterLocation (appliedAll : List MimeMsg) (location : String) (key : AppKey) : String :=
  if location = "" ∨ location ∈ (["Not Found", "Location not specified", ""] : List String) then
    match searchAppliedLocation appliedAll key with
    | some loc => loc
    | none => location
  else location

/-- A failure row appended by phase 2 (no row-number/total columns). -/
def vrFailure (emailId label reason date_str company title location status subject comment :
    String) : FailureRec :=
  { emailId := emailId, label := label, rowNumber := none, totalEmails := none,
    reason := reason, date := date_str, companyName := company, jobTitle := title,
    location := location, status := status, metadata := subject, comment := comment }

/-- One iteration of the phase-2 loop (`processor.py` lines 245-356):
parse a `Viewed`/`Rejected` email, then either create an unmatched record,
upgrade an existing one, or log a failure. -/
def phase2Step (appliedAll : List MimeMsg) (label : String) (st : ProcState)
    (m : VRMsg) : ProcState :=
  let subject := (m.subject).getD ""
  let date_str := m.dateStr
  let comment := generate_comment subject
  let current_status := lastSegment label
  match dateCheck date_str with
  | .skip => st
  | .err =>
    (st.1, st.2 ++ [vrFailure m.id label "invalid literal for int() with base 10" date_str
      "Parse Failed" "Parse Failed" "Parse Failed" current_status subject comment])
  | .proceed =>
    let html_body := get_html_body m.mime
    let parsed_info := parse_viewed_rejected_info html_body subject
    match parsed_info.error with
    | some errMsg =>
      (st.1, st.2 ++ [vrFailure m.id label errMsg date_str parsed_info.companyName
        parsed_info.jobTitle parsed_info.location current_status subject comment])
    | none =>
      let company := parsed_info.companyName
      let title := parsed_info.jobTitle
      let location := parsed_info.location
      let key := applicationKey company title
      match amLookup st.1 key with
      | none =>
        let better_location := betterLocation appliedAll location key
        let failures :=
          if current_status = "Viewed" then
            st.2 ++ [vrFailure m.id label
              ("Unmatched 'Viewed' email. Added to main report, but a matching 'Applied' record was not found in the selected date range. Location: "
                ++ (if better_location = "" then "Not Found" else better_location))
              date_str company title
              (if better_location = "" then "Not Found" else better_location)
              current_status subject comment]
          else st.2
        (amInsert st.1 key
          { companyName := company, jobTitle := title,
            location :=
              if better_location = "" then "Location not found in date range"
              else better_location,
            status := current_status, date := date_str, metadataSubject := subject,
            comment := current_status ++
              " email found without matching Applied record in date range" },
         failures)
      | some existing_record =>
        if get_status_priority current_status > get_status_priority existing_record.status then
          let original_comment := existing_record.comment
          let original_location := existing_record.location
          (amInsert st.1 key
            { companyName := existing_record.companyName,
              jobTitle := existing_record.jobTitle,
              location :=
                if original_location = "" ∧ location ≠ "" then location
                else original_location,
              status := current_status, date := date_str, metadataSubject := subject,
              comment := "Status updated to " ++ current_status ++
                ". Original comment: " ++ original_comment }, st.2)
        else st

/-- `labels_to_verify`: the fixed phase-2 label order, filtered to the
labels selected for this run. -/
def labelsToVerify (target : List String) : List String :=
  (["LinkedIn/Viewed", "LinkedIn/Rejected"] : List String).filter
    (fun l => target.contains l)

/-- The whole phase-2 loop: for each label to verify, fold its fetched
messages into the state. -/
def runPhase2 (appliedAll : List MimeMsg) (target : List String)
    (fetch : String → List VRMsg) (st : ProcState) : ProcState :=
  (labelsToVerify target).foldl
    (fun acc l => (fetch l).foldl (phase2Step appliedAll l) acc) st

/-- The parse result phase 2 computes for a message. -/
def pvrOf (m : VRMsg) : PVRResult :=
  parse_viewed_rejected_info (get_html_body m.mime) ((m.subject).getD "")

/-- The key phase 2 computes for a successfully parsed message. -/
def pKeyOf (m : VRMsg) : AppKey :=
  applicationKey (pvrOf m).companyName (pvrOf m).jobTitle

/-- The record created by the unmatched branch of phase 2. -/
def newRecOf (appliedAll : List MimeMsg) (label : String) (m : VRMsg) : AppRecord :=
  let bl := betterLocation appliedAll (pvrOf m).location (pKeyOf m)
  { companyName := (pvrOf m).companyName, jobTitle := (pvrOf m).jobTitle,
    location := if bl = "" then "Location not found in date range" else bl,
    status := lastSegment label, date := m.dateStr,
    metadataSubject := (m.subject).getD "",
    comment := lastSegment label ++
      " email found without matching Applied record in date range" }

/-- The record written by the status-upgrade branch of phase 2, given the
existing record `ex`. -/
def updRecOf (label : String) (m : VRMsg) (ex : AppRecord) : AppRecord :=
  { companyName := ex.companyName, jobTitle := ex.jobTitle,
    location :=
      if ex.location = "" ∧ (pvrOf m).location ≠ "" then (pvrOf m).location
      else ex.location,
    status := lastSegment label, date := m.dateStr,
    metadataSubject := (m.subject).getD "",
    comment := "Status updated to " ++ lastSegment label ++
      ". Original comment: " ++ ex.comment }

/-- The failure row appended by the unmatched branch for a `Viewed` status. -/
def unmatchedFailureOf (appliedAll : List MimeMsg) (label : String) (m : VRMsg) : FailureRec :=
  let bl := betterLocation appliedAll (pvrOf m).location (pKeyOf m)
  vrFailure m.id label
    ("Unmatched 'Viewed' email. Added to main report, but a matching 'Applied' record was not found in the selected date range. Location: "
      ++ (if bl = "" then "Not Found" else bl))
    m.dateStr (pvrOf m).companyName (pvrOf m).jobTitle
    (if bl = "" then "Not Found" else bl)
    (lastSegment label) ((m.subject).getD "") (generate_comment ((m.subject).getD ""))

/-! ## Concrete test messages used by witnesses and counterexamples -/

/-- A key shared by several concrete scenarios below. -/
def acmeSweKey : AppKey := ("acme", "swe")

/-- A record already `Rejected`, with a populated location. -/
def c1Rec : AppRecord :=
  ⟨"Acme", "SWE", "Old Town", "Rejected", "2024-01-01", "subj0", "comment0"⟩

/-- A state holding `c1Rec` under `acmeSweKey`. -/
def c1State : ProcState := ([(acmeSweKey, c1Rec)], [])

/-- A `Viewed` notification for the same application (company and title
recovered from the subject fallback). -/
def c1Msg : VRMsg :=
  ⟨"id-c1", some "Your application to SWE at Acme", "2024-02-02",
   .leaf "text/plain" none "x"⟩

/-- A record already `Rejected` whose location is still empty. -/
def c2Rec : AppRecord :=
  ⟨"Acme", "SWE", "", "Rejected", "2024-01-01", "subj0", "comment0"⟩

/-- A state holding `c2Rec` under `acmeSweKey`. -/
def c2State : ProcState := ([(acmeSweKey, c2Rec)], [])

/-- A `Viewed` notification for the same application whose HTML carries a
non-empty location. -/
def c2Msg : VRMsg :=
  ⟨"id-c2", some "Your application to SWE at Acme", "2024-02-02",
   .leaf "text/html" none "<p>Acme · Remote</p>"⟩

/-- An `Applied` record whose location is still empty. -/
def c2wRec : AppRecord :=
  ⟨"Acme", "SWE", "", "Applied", "2024-01-01", "subj0", "comment0"⟩

/-- A state holding `c2wRec` under `acmeSweKey`. -/
def c2wState : ProcState := ([(acmeSweKey, c2wRec)], [])

/-- The example `Applied` email body of the spec (section 8). -/
def c3Body : String :=
  "Hi,\nYour application was sent to Acme Corp\n\nSoftware Engineer\nAcme Corp\nRemote\nThanks"

/-- The example `Applied` message wrapping `c3Body`. -/
def c3Msg : AppliedMsg :=
  ⟨"id-c3", some "You applied", "2024-03-01", .leaf "text/plain" none c3Body⟩

/-- The record phase 1 builds from `c3Msg`. -/
def c3Rec : AppRecord :=
  ⟨"Acme Corp", "Software Engineer", "Remote", "Applied", "2024-03-01",
   "You applied", "Email regarding: You applied"⟩

/-- An `Applied` body whose anchor is followed by only two non-empty lines
(no location line). -/
def c4Body : String :=
  "Your application was sent to Acme Corp\nSoftware Engineer\nAcme Corp"

/-- The malformed `Applied` message wrapping `c4Body`. -/
def c4Msg : AppliedMsg :=
  ⟨"id-c4", some "You applied", "2024-01-05", .leaf "text/plain" none c4Body⟩

/-- The error message `parse_applied_info` raises when all three fields
are unresolved. -/
def c4Err : String :=
  "Could not parse required fields. Missing: Job Title, Company Name, Location"

/-- A `Rejected` notification with no matching record and an empty parsed
location (company and title come from the subject fallback only). -/
def c8Msg : VRMsg :=
  ⟨"id-c8", some "Your application to X at Acme", "2024-02-02",
   .leaf "text/plain" none ""⟩

/-- A `Rejected` notification with no matching record and location parsed
from the HTML. -/
def c8wMsg : VRMsg :=
  ⟨"id-c8w", some "Your application to SWE at Acme", "2024-02-02",
   .leaf "text/html" none "<p>Acme · Remote</p>"⟩

/-- A pre-cutoff (year 2023) message under the `Applied` label. -/
def c10AppliedMsg : AppliedMsg :=
  ⟨"id-c10a", some "old subject", "2023-11-09", .leaf "text/plain" none c3Body⟩

/-- A pre-cutoff (year 2023) message under the `Viewed` label. -/
def c10VrMsg : VRMsg :=
  ⟨"id-c10v", some "Your application to SWE at Acme", "2023-11-09",
   .leaf "text/html" none "<p>Acme · Remote</p>"⟩

/-! ## Helper lemmas -/

theorem toNat_pyLowerChar_upper {c : Char} (h1 : 65 ≤ c.toNat) (h2 : c.toNat ≤ 90) :
    (pyLowerChar c).toNat = c.toNat + 32 := by
  unfold pyLowerChar
  rw [if_pos ⟨h1, h2⟩]
  generalize c.toNat = n at h1 h2 ⊢
  interval_cases n <;> decide

theorem pyLowerChar_of_not_upper {c : Char} (h : ¬(65 ≤ c.toNat ∧ c.toNat ≤ 90)) :
    pyLowerChar c = c := by
  unfold pyLowerChar
  rw [if_neg h]

theorem pyLowerChar_idem (c : Char) : pyLowerChar (pyLowerChar c) = pyLowerChar c := by
  by_cases h : 65 ≤ c.toNat ∧ c.toNat ≤ 90
  · have ht := toNat_pyLowerChar_upper h.1 h.2
    have : ¬(65 ≤ (pyLowerChar c).toNat ∧ (pyLowerChar c).toNat ≤ 90) := by omega
    exact pyLowerChar_of_not_upper this
  · rw [pyLowerChar_of_not_upper h, pyLowerChar_of_not_upper h]

theorem pyWsChar_pyLowerChar (c : Char) : pyWsChar (pyLowerChar c) = pyWsChar c := by
  by_cases h : 65 ≤ c.toNat ∧ c.toNat ≤ 90
  · have ht := toNat_pyLowerChar_upper h.1 h.2
    simp only [pyWsChar, List.mem_cons, List.not_mem_nil, or_false]
    rw [decide_eq_decide, ht]
    omega
  · rw [pyLowerChar_of_not_upper h]

theorem pyLower_pyLower (s : String) : pyLower (pyLower s) = pyLower s := by
  show (⟨(s.data.map pyLowerChar).map pyLowerChar⟩ : String) = ⟨s.data.map pyLowerChar⟩
  congr 1
  rw [List.map_map]
  exact List.map_congr_left (fun a _ => pyLowerChar_idem a)

theorem dropWhile_dropWhile (p : α → Bool) (l : List α) :
    (l.dropWhile p).dropWhile p = l.dropWhile p := by
  induction l with
  | nil => rfl
  | cons x t ih =>
    by_cases h : p x
    · rw [List.dropWhile_cons_of_pos h]; exact ih
    · rw [List.dropWhile_cons_of_neg h, List.dropWhile_cons_of_neg h]

theorem dropWhile_eq_cons_not (p : α → Bool) (l : List α) (x : α) (t : List α)
    (h : l.dropWhile p = x :: t) : p x = false := by
  induction l with
  | nil => simp [List.dropWhile] at h
  | cons a l ih =>
    by_cases ha : p a
    · rw [List.dropWhile_cons_of_pos ha] at h
      exact ih h
    · rw [List.dropWhile_cons_of_neg ha] at h
      obtain ⟨hx, _⟩ := List.cons.inj h
      subst hx
      simpa using ha

theorem dropWhile_pyStripList (p : α → Bool) (l : List α) :
    (((l.dropWhile p).reverse.dropWhile p).reverse).dropWhile p
      = ((l.dropWhile p).reverse.dropWhile p).reverse := by
  rcases hcr : ((l.dropWhile p).reverse.dropWhile p).reverse with _ | ⟨x, t⟩
  · simp
  · have hsuff : (l.dropWhile p).reverse.dropWhile p <:+ (l.dropWhile p).reverse :=
      List.dropWhile_suffix p
    have hpre : ((l.dropWhile p).reverse.dropWhile p).reverse <+: l.dropWhile p := by
      have h2 := List.reverse_prefix.mpr hsuff
      rwa [List.reverse_reverse] at h2
    rw [hcr] at hpre
    obtain ⟨t2, ht2⟩ := hpre
    have hx : p x = false := by
      refine dropWhile_eq_cons_not p l x (t ++ t2) ?_
      rw [← ht2]
      simp
    rw [List.dropWhile_cons_of_neg (by simp [hx])]

theorem pyStripList_idem (l : List Char) :
    pyStripList (pyStripList l) = pyStripList l := by
  show (((pyStripList l).dropWhile pyWsChar).reverse.dropWhile pyWsChar).reverse
    = pyStripList l
  rw [show (pyStripList l).dropWhile pyWsChar = pyStripList l from
    dropWhile_pyStripList _ _]
  unfold pyStripList
  rw [List.reverse_reverse, dropWhile_dropWhile]

theorem pyStrip_pyStrip (s : String) : pyStrip (pyStrip s) = pyStrip s := by
  show (⟨pyStripList (pyStripList s.data)⟩ : String) = ⟨pyStripList s.data⟩
  rw [pyStripList_idem]

theorem pyStripList_map_pyLowerChar (l : List Char) :
    pyStripList (l.map pyLowerChar) = (pyStripList l).map pyLowerChar := by
  have hfun : (pyWsChar ∘ pyLowerChar) = pyWsChar := funext pyWsChar_pyLowerChar
  unfold pyStripList
  rw [List.dropWhile_map, hfun, ← List.map_reverse, List.dropWhile_map, hfun,
    ← List.map_reverse]

theorem pyStrip_pyLower (s : String) : pyStrip (pyLower s) = pyLower (pyStrip s) := by
  show (⟨pyStripList (s.data.map pyLowerChar)⟩ : String)
    = ⟨(pyStripList s.data).map pyLowerChar⟩
  rw [pyStripList_map_pyLowerChar]

theorem normalizeKeyPart_idem (s : String) :
    normalizeKeyPart (normalizeKeyPart s) = normalizeKeyPart s := by
  unfold normalizeKeyPart
  rw [← pyStrip_pyLower, pyLower_pyLower, pyStrip_pyStrip]

theorem normalizeKeyPart_pyLower (s : String) :
    normalizeKeyPart (pyLower s) = normalizeKeyPart s := by
  unfold normalizeKeyPart
  rw [pyLower_pyLower]

theorem normalizeKeyPart_pyStrip (s : String) :
    normalizeKeyPart (pyStrip s) = normalizeKeyPart s := by
  unfold normalizeKeyPart
  rw [← pyStrip_pyLower, pyStrip_pyStrip]

theorem amLookup_amInsert_self (m : AppMap) (k : AppKey) (r : AppRecord) :
    amLookup (amInsert m k r) k = some r := by
  induction m with
  | nil => simp [amInsert, amLookup]
  | cons hd tl ih =>
    obtain ⟨k', r'⟩ := hd
    by_cases h : k' = k
    · simp [amInsert, amLookup, h]
    · simp only [amInsert, amLookup, if_neg h]
      exact ih

theorem amLookup_amInsert_ne (m : AppMap) (k k' : AppKey) (r : AppRecord)
    (h : k' ≠ k) : amLookup (amInsert m k r) k' = amLookup m k' := by
  induction m with
  | nil => simp [amInsert, amLookup, Ne.symm h]
  | cons hd tl ih =>
    obtain ⟨k0, r0⟩ := hd
    by_cases h0 : k0 = k
    · subst h0
      simp [amInsert, amLookup, Ne.symm h]
    · by_cases hk : k0 = k'
      · simp [amInsert, amLookup, if_neg h0, hk, h]
      · simp [amInsert, amLookup, if_neg h0, hk, h, ih]

theorem get_status_priority_le_three (s : String) : get_status_priority s ≤ 3 := by
  unfold get_status_priority
  split
  · omega
  · split
    · omega
    · split <;> omega

/-- Shape analysis of the phase-2 map mutation: a step either leaves the
map unchanged, inserts a fresh record at the message key, or replaces the
record at the message key after a strict priority comparison. -/
theorem phase2Step_map_shape (appliedAll : List MimeMsg) (label : String)
    (st : ProcState) (m : VRMsg) :
    (phase2Step appliedAll label st m).1 = st.1 ∨
    (amLookup st.1 (pKeyOf m) = none ∧
      (phase2Step appliedAll label st m).1
        = amInsert st.1 (pKeyOf m) (newRecOf appliedAll label m)) ∨
    (∃ ex, amLookup st.1 (pKeyOf m) = some ex ∧
      get_status_priority ex.status < get_status_priority (lastSegment label) ∧
      (phase2Step appliedAll label st m).1
        = amInsert st.1 (pKeyOf m) (updRecOf label m ex)) := by
  unfold newRecOf updRecOf pKeyOf pvrOf
  simp only [phase2Step]
  cases hdc : dateCheck m.dateStr with
  | skip => exact Or.inl rfl
  | err => exact Or.inl rfl
  | proceed =>
    cases he : (parse_viewed_rejected_info (get_html_body m.mime)
        ((m.subject).getD "")).error with
    | some e => exact Or.inl rfl
    | none =>
      cases hl : amLookup st.1 (applicationKey
          (parse_viewed_rejected_info (get_html_body m.mime)
            ((m.subject).getD "")).companyName
          (parse_viewed_rejected_info (get_html_body m.mime)
            ((m.subject).getD "")).jobTitle) with
      | none => exact Or.inr (Or.inl ⟨rfl, rfl⟩)
      | some ex =>
        by_cases hp : get_status_priority (lastSegment label)
            > get_status_priority ex.status
        · refine Or.inr (Or.inr ⟨ex, rfl, hp, ?_⟩)
          simp only [hp, ite_true]
        · left
          simp only [hp, ite_false]

/-- One phase-2 step never deletes a record, and only ever raises the
priority of its status (or leaves the record untouched). -/
theorem phase2Step_record_evolves (appliedAll : List MimeMsg) (label : String)
    (st : ProcState) (m : VRMsg) (k : AppKey) (r : AppRecord)
    (hr : amLookup st.1 k = some r) :
    ∃ r', amLookup (phase2Step appliedAll label st m).1 k = some r' ∧
      (r' = r ∨ get_status_priority r.status < get_status_priority r'.status) := by
  rcases phase2Step_map_shape appliedAll label st m with h | ⟨hnone, h⟩ | ⟨ex, hex, hp, h⟩
  · exact ⟨r, by rw [h, hr], Or.inl rfl⟩
  · have hk : k ≠ pKeyOf m := by
      intro hkk
      rw [hkk, hnone] at hr
      exact Option.noConfusion hr
    exact ⟨r, by rw [h, amLookup_amInsert_ne _ _ _ _ hk, hr], Or.inl rfl⟩
  · by_cases hk : k = pKeyOf m
    · subst hk
      have hexr : ex = r := by
        rw [hr] at hex
        exact (Option.some.inj hex).symm
      subst hexr
      refine ⟨updRecOf label m ex, by rw [h, amLookup_amInsert_self], Or.inr ?_⟩
      simpa [updRecOf] using hp
    · exact ⟨r, by rw [h, amLookup_amInsert_ne _ _ _ _ hk, hr], Or.inl rfl⟩

/-- `phase2Step_record_evolves`, folded over a list of messages. -/
theorem foldl_phase2_record_evolves (appliedAll : List MimeMsg) (label : String) :
    ∀ (msgs : List VRMsg) (st : ProcState) (k : AppKey) (r : AppRecord),
      amLookup st.1 k = some r →
      ∃ r', amLookup ((msgs.foldl (phase2Step appliedAll label) st)).1 k = some r' ∧
        (r' = r ∨ get_status_priority r.status < get_status_priority r'.status) := by
  intro msgs
  induction msgs with
  | nil => exact fun st k r hr => ⟨r, hr, Or.inl rfl⟩
  | cons m rest ih =>
    intro st k r hr
    obtain ⟨r1, hr1, hrel1⟩ := phase2Step_record_evolves appliedAll label st m k r hr
    obtain ⟨r', hr', hrel2⟩ := ih (phase2Step appliedAll label st m) k r1 hr1
    refine ⟨r', hr', ?_⟩
    rcases hrel1 with rfl | h1
    · exact hrel2
    · rcases hrel2 with rfl | h2
      · exact Or.inr h1
      · exact Or.inr (h1.trans h2)

/-- `phase2Step_record_evolves`, over the whole phase-2 run. -/
theorem runPhase2_record_evolves (appliedAll : List MimeMsg) (target : List String)
    (fetch : String → List VRMsg) (st : ProcState) (k : AppKey) (r : AppRecord)
    (hr : amLookup st.1 k = some r) :
    ∃ r', amLookup (runPhase2 appliedAll target fetch st).1 k = some r' ∧
      (r' = r ∨ get_status_priority r.status < get_status_priority r'.status) := by
  unfold runPhase2
  generalize labelsToVerify target = labels
  induction labels generalizing st r with
  | nil => exact ⟨r, hr, Or.inl rfl⟩
  | cons l rest ih =>
    obtain ⟨r1, hr1, hrel1⟩ := foldl_phase2_record_evolves appliedAll l (fetch l) st k r hr
    obtain ⟨r', hr', hrel2⟩ := ih _ _ hr1
    refine ⟨r', hr', ?_⟩
    rcases hrel1 with rfl | h1
    · exact hrel2
    · rcases hrel2 with rfl | h2
      · exact Or.inr h1
      · exact Or.inr (h1.trans h2)

theorem pyStrip_ampStrip (s : String) : pyStrip (ampStrip s) = ampStrip s := by
  unfold ampStrip
  by_cases h : s ≠ ""
  · rw [if_pos h, pyStrip_pyStrip]
  · rw [if_neg h]
    push_neg at h
    subst h
    decide

/-! ## The claims -/

/-- C9: the key normalization `(company.lower().strip(),
title.lower().strip())` is idempotent and insensitive to letter case and
to surrounding whitespace; in particular the key of `("Acme Corp", " swe ")`
equals the key of `("acme corp", "swe")`. -/
theorem application_key_normalization :
    (∀ c t, applicationKey (applicationKey c t).1 (applicationKey c t).2
        = applicationKey c t) ∧
    (∀ c t, applicationKey (pyLower c) (pyLower t) = applicationKey c t) ∧
    (∀ c t, applicationKey (pyStrip c) (pyStrip t) = applicationKey c t) ∧
    applicationKey "Acme Corp" " swe " = applicationKey "acme corp" "swe" := by
  refine ⟨?_, ?_, ?_, by decide⟩
  · intro c t
    unfold applicationKey
    rw [normalizeKeyPart_idem, normalizeKeyPart_idem]
  · intro c t
    unfold applicationKey
    rw [normalizeKeyPart_pyLower, normalizeKeyPart_pyLower]
  · intro c t
    unfold applicationKey
    rw [normalizeKeyPart_pyStrip, normalizeKeyPart_pyStrip]

/-- C10: a message whose parsed date is non-empty with a year before 2024
is skipped entirely by both processing phases: the applications map and
the failure log are left exactly as they were. -/
theorem pre2024_date_filter_skips :
    (∀ total st index (m : AppliedMsg) y, m.dateStr ≠ "" →
      yearOf m.dateStr = some y → y < 2024 →
      phase1Step total st (index, m) = st) ∧
    (∀ appliedAll label st (m : VRMsg) y, m.dateStr ≠ "" →
      yearOf m.dateStr = some y → y < 2024 →
      phase2Step appliedAll label st m = st) := by
  constructor
  · intro total st index m y h1 h2 h3
    have hdc : dateCheck m.dateStr = .skip := by
      unfold dateCheck
      rw [if_neg h1, h2]
      exact if_pos h3
    simp only [phase1Step, hdc]
  · intro appliedAll label st m y h1 h2 h3
    have hdc : dateCheck m.dateStr = .skip := by
      unfold dateCheck
      rw [if_neg h1, h2]
      exact if_pos h3
    simp only [phase2Step, hdc]

/-- Witness for C10 at the concrete 2023 messages. -/
theorem pre2024_date_filter_skips_witness :
    (c10AppliedMsg.dateStr ≠ "" ∧ yearOf c10AppliedMsg.dateStr = some 2023 ∧
      2023 < 2024 ∧ c10VrMsg.dateStr ≠ "" ∧ yearOf c10VrMsg.dateStr = some 2023) ∧
    phase1Step 1 ([], []) (1, c10AppliedMsg) = ([], []) ∧
    phase2Step [] "LinkedIn/Viewed" ([], []) c10VrMsg = ([], []) :=
  ⟨⟨by decide, by decide, by decide, by decide, by decide⟩,
   pre2024_date_filter_skips.1 1 ([], []) 1 c10AppliedMsg 2023
     (by decide) (by decide) (by decide),
   pre2024_date_filter_skips.2 [] "LinkedIn/Viewed" ([], []) c10VrMsg 2023
     (by decide) (by decide) (by decide)⟩

/-- C5 counterexample: on a non-multipart message whose single part is
`text/html`, `get_plain_text_body` returns the payload even though no
`text/plain` part exists, where the spec's contract (`firstMatchingBody`)
returns the empty string. -/
theorem plain_body_single_part_mismatch :
    get_plain_text_body (.leaf "text/html" none "<p>hello</p>") = "<p>hello</p>" ∧
    firstMatchingBody "text/plain" (.leaf "text/html" none "<p>hello</p>") = "" := by
  exact ⟨rfl, by decide⟩

/-- C5 (amended): on multipart messages both extractors return the decoded
content of the first part of the MIME walk whose content type matches and
whose disposition is not `attachment`, or the empty string when no such
part exists (the spec contract `firstMatchingBody`).  On non-multipart
messages the disposition is ignored: the HTML extractor returns the
payload exactly when the content type is `text/html`, while the plain-text
extractor returns the payload unconditionally, whatever the content type.
All four are pure functions of the message. -/
theorem body_extractor_characterization :
    (∀ subtype d parts,
      get_plain_text_body (.multi subtype d parts)
        = firstMatchingBody "text/plain" (.multi subtype d parts)) ∧
    (∀ subtype d parts,
      get_html_body (.multi subtype d parts)
        = firstMatchingBody "text/html" (.multi subtype d parts)) ∧
    (∀ ctype d content, get_plain_text_body (.leaf ctype d content) = content) ∧
    (∀ ctype d content,
      get_html_body (.leaf ctype d content)
        = if ctype = "text/html" then content else "") :=
  ⟨fun _ _ _ => rfl, fun _ _ _ => rfl, fun _ _ _ => rfl, fun _ _ _ => rfl⟩

/-- C7: when neither HTML pattern matches, a subject of the form
"Your application to {title} at {company}" fills both title and company,
the location stays empty, and no critical error is flagged. -/
theorem viewed_subject_fallback (html : String)
    (h1 : reSearch companyLocationRe html = none)
    (h2 : reSearch jobTitleRe html = none) :
    parse_viewed_rejected_info html "Your application to Backend Engineer at Beta Inc"
      = ⟨"Backend Engineer", "Beta Inc", "", none⟩ := by
  unfold parse_viewed_rejected_info pvrRaw
  rw [h1, h2]
  decide

/-- Witness for C7 at the empty HTML body. -/
theorem viewed_subject_fallback_witness :
    (reSearch companyLocationRe "" = none ∧ reSearch jobTitleRe "" = none) ∧
    parse_viewed_rejected_info "" "Your application to Backend Engineer at Beta Inc"
      = ⟨"Backend Engineer", "Beta Inc", "", none⟩ :=
  ⟨⟨by decide, by decide⟩, viewed_subject_fallback "" (by decide) (by decide)⟩

/-- C6 (amended): each candidate string returned by the Viewed/Rejected
parser is the raw extracted candidate after one left-to-right pass of
`"&amp;" → "&"` replacement and a strip of leading/trailing whitespace; in
particular no candidate has leading or trailing whitespace.  Non-breaking
spaces are not replaced and interior whitespace runs are not collapsed
(see the counterexample). -/
theorem vr_candidates_unescape_strip :
    ∀ html subject,
      (parse_viewed_rejected_info html subject).jobTitle
          = ampStrip (pvrRaw html subject).1 ∧
      (parse_viewed_rejected_info html subject).companyName
          = ampStrip (pvrRaw html subject).2.1 ∧
      (parse_viewed_rejected_info html subject).location
          = ampStrip (pvrRaw html subject).2.2 ∧
      pyStrip (parse_viewed_rejected_info html subject).jobTitle
          = (parse_viewed_rejected_info html subject).jobTitle ∧
      pyStrip (parse_viewed_rejected_info html subject).companyName
          = (parse_viewed_rejected_info html subject).companyName ∧
      pyStrip (parse_viewed_rejected_info html subject).location
          = (parse_viewed_rejected_info html subject).location := by
  intro html subject
  exact ⟨rfl, rfl, rfl, pyStrip_ampStrip _, pyStrip_ampStrip _, pyStrip_ampStrip _⟩

/-- C6 counterexample: the parser keeps an interior run of two spaces in
"Acme  Corp" (no whitespace collapsing) and keeps the literal text
"&nbsp;" in "A&nbsp;B" (no non-breaking-space unescaping). -/
theorem vr_candidates_not_collapsed :
    (parse_viewed_rejected_info "<p>Acme  Corp · Remote</p>" "").companyName
        = "Acme  Corp" ∧
    isSub "  " (parse_viewed_rejected_info "<p>Acme  Corp · Remote</p>" "").companyName
        = true ∧
    (parse_viewed_rejected_info "<p>A&nbsp;B · L</p>" "").companyName = "A&nbsp;B" ∧
    isSub "&nbsp;" (parse_viewed_rejected_info "<p>A&nbsp;B · L</p>" "").companyName
        = true :=
  ⟨by decide, by decide, by decide, by decide⟩

/-- C1: for every record in the reconciler's map and every processed
Viewed/Rejected message with the same key, the record's status is either
left unchanged or moved to a strictly higher priority value (Applied=1 <
Viewed=2 < Rejected=3) — never downgraded; once a record is `Rejected`
its status stays `Rejected` for the rest of the phase-2 run. -/
theorem status_never_downgraded :
    (∀ appliedAll label st (m : VRMsg) k r r',
      amLookup st.1 k = some r →
      amLookup (phase2Step appliedAll label st m).1 k = some r' →
      (r' = r ∨ get_status_priority r.status < get_status_priority r'.status)) ∧
    (∀ appliedAll target fetch st k r r',
      amLookup st.1 k = some r →
      amLookup (runPhase2 appliedAll target fetch st).1 k = some r' →
      ((r' = r ∨ get_status_priority r.status < get_status_priority r'.status) ∧
        (r.status = "Rejected" → r'.status = "Rejected"))) := by
  constructor
  · intro appliedAll label st m k r r' hr hr'
    obtain ⟨r2, hr2, hrel⟩ := phase2Step_record_evolves appliedAll label st m k r hr
    rw [hr2] at hr'
    cases Option.some.inj hr'
    exact hrel
  · intro appliedAll target fetch st k r r' hr hr'
    obtain ⟨r2, hr2, hrel⟩ := runPhase2_record_evolves appliedAll target fetch st k r hr
    rw [hr2] at hr'
    have heq := Option.some.inj hr'
    subst heq
    refine ⟨hrel, ?_⟩
    intro hrej
    rcases hrel with rfl | hlt
    · exact hrej
    · exfalso
      have h3 := get_status_priority_le_three r2.status
      rw [hrej] at hlt
      have : get_status_priority "Rejected" = 3 := by decide
      omega

/-- Witness for C1: a `Viewed` message reaching a record already
`Rejected` leaves it untouched. -/
theorem status_never_downgraded_witness :
    (amLookup c1State.1 acmeSweKey = some c1Rec ∧
     amLookup (phase2Step [] "LinkedIn/Viewed" c1State c1Msg).1 acmeSweKey = some c1Rec) ∧
    (c1Rec = c1Rec ∨ get_status_priority c1Rec.status < get_status_priority c1Rec.status) :=
  ⟨⟨by decide, by decide⟩,
   status_never_downgraded.1 [] "LinkedIn/Viewed" c1State c1Msg acmeSweKey c1Rec c1Rec
     (by decide) (by decide)⟩

/-- C2 (amended): a non-empty location of an existing record is never
changed by a later Viewed/Rejected message for the same key; an empty
location is filled from the incoming message's non-empty parsed location
exactly when the incoming status has strictly higher priority than the
record's status (with equal or lower priority, nothing — including the
location — is updated; see the counterexample). -/
theorem location_preserved_or_guarded_fill :
    (∀ appliedAll label st (m : VRMsg) k r r',
      amLookup st.1 k = some r → r.location ≠ "" →
      amLookup (phase2Step appliedAll label st m).1 k = some r' →
      r'.location = r.location) ∧
    (∀ appliedAll label st (m : VRMsg) k r,
      amLookup st.1 k = some r → r.location = "" →
      dateCheck m.dateStr = .proceed → (pvrOf m).error = none → pKeyOf m = k →
      (pvrOf m).location ≠ "" →
      get_status_priority (lastSegment label) > get_status_priority r.status →
      amLookup (phase2Step appliedAll label st m).1 k = some (updRecOf label m r) ∧
      (updRecOf label m r).location = (pvrOf m).location) := by
  constructor
  · intro appliedAll label st m k r r' hr hloc hr'
    rcases phase2Step_map_shape appliedAll label st m with h | ⟨hnone, h⟩ | ⟨ex, hex, hp, h⟩
    · rw [h, hr] at hr'
      cases Option.some.inj hr'
      rfl
    · have hk : k ≠ pKeyOf m := by
        intro hkk
        rw [hkk, hnone] at hr
        exact Option.noConfusion hr
      rw [h, amLookup_amInsert_ne _ _ _ _ hk, hr] at hr'
      cases Option.some.inj hr'
      rfl
    · by_cases hk : k = pKeyOf m
      · subst hk
        rw [hr] at hex
        cases Option.some.inj hex
        rw [h, amLookup_amInsert_self] at hr'
        cases Option.some.inj hr'
        unfold updRecOf
        rw [if_neg (fun hcon => hloc hcon.1)]
      · rw [h, amLookup_amInsert_ne _ _ _ _ hk, hr] at hr'
        cases Option.some.inj hr'
        rfl
  · intro appliedAll label st m k r hr hloc hdc he hkey hploc hp
    have hstep : (phase2Step appliedAll label st m).1
        = amInsert st.1 k (updRecOf label m r) := by
      unfold pKeyOf pvrOf at hkey
      unfold pvrOf at he
      unfold updRecOf pvrOf
      simp only [phase2Step, hdc, he, hkey, hr, hp, ite_true]
    refine ⟨by rw [hstep]; exact amLookup_amInsert_self _ _ _, ?_⟩
    unfold updRecOf
    rw [if_pos ⟨hloc, hploc⟩]

/-- C2 counterexample: a `Viewed` message for a record already `Rejected`
parses to the non-empty location "Remote" while the record's location is
empty, yet processing leaves the record unchanged (empty location and
all): the backfill only happens on a strict status upgrade. -/
theorem viewed_after_rejected_no_backfill :
    (pvrOf c2Msg).location = "Remote" ∧ c2Rec.location = "" ∧
    amLookup (phase2Step [] "LinkedIn/Viewed" c2State c2Msg).1 acmeSweKey = some c2Rec :=
  ⟨by decide, by decide, by decide⟩

/-- Witness for C2: a `Viewed` message upgrading an `Applied` record with
an empty location backfills the location from the message. -/
theorem location_preserved_or_guarded_fill_witness :
    (amLookup c2wState.1 acmeSweKey = some c2wRec ∧ c2wRec.location = "" ∧
      dateCheck c2Msg.dateStr = .proceed ∧ (pvrOf c2Msg).error = none ∧
      pKeyOf c2Msg = acmeSweKey ∧ (pvrOf c2Msg).location ≠ "" ∧
      get_status_priority (lastSegment "LinkedIn/Viewed")
        > get_status_priority c2wRec.status) ∧
    (amLookup (phase2Step [] "LinkedIn/Viewed" c2wState c2Msg).1 acmeSweKey
        = some (updRecOf "LinkedIn/Viewed" c2Msg c2wRec) ∧
     (updRecOf "LinkedIn/Viewed" c2Msg c2wRec).location = (pvrOf c2Msg).location) :=
  ⟨⟨by decide, by decide, by decide, by decide, by decide, by decide, by decide⟩,
   location_preserved_or_guarded_fill.2 [] "LinkedIn/Viewed" c2wState c2Msg acmeSweKey
     c2wRec (by decide) (by decide) (by decide) (by decide) (by decide) (by decide)
     (by decide)⟩

/-- C8 (amended): a successfully parsed Viewed/Rejected message whose key
is absent from the map creates a new record that is present in the map
afterwards (hence emitted in the final report), carrying the parsed
company and title and the message's status; its location, however, is the
parsed location only when that is non-empty and not a placeholder —
otherwise it is the result of the cross-time Applied search, or the
literal "Location not found in date range" when even that is empty — and
its comment is the fixed unmatched-record comment.  Exactly when the
status is `Viewed`, one informational FailureRecord is appended. -/
theorem vr_unmatched_record_creation :
    ∀ appliedAll label st (m : VRMsg),
      dateCheck m.dateStr = .proceed →
      (pvrOf m).error = none →
      amLookup st.1 (pKeyOf m) = none →
      phase2Step appliedAll label st m
        = (amInsert st.1 (pKeyOf m) (newRecOf appliedAll label m),
           if lastSegment label = "Viewed" then
             st.2 ++ [unmatchedFailureOf appliedAll label m]
           else st.2) ∧
      amLookup (phase2Step appliedAll label st m).1 (pKeyOf m)
        = some (newRecOf appliedAll label m) := by
  intro appliedAll label st m hdc he hnone
  have hstep : phase2Step appliedAll label st m
      = (amInsert st.1 (pKeyOf m) (newRecOf appliedAll label m),
         if lastSegment label = "Viewed" then
           st.2 ++ [unmatchedFailureOf appliedAll label m]
         else st.2) := by
    unfold pKeyOf pvrOf at hnone
    unfold newRecOf unmatchedFailureOf pKeyOf pvrOf
    unfold pvrOf at he
    simp only [phase2Step, hdc, he, hnone]
  refine ⟨hstep, ?_⟩
  rw [hstep]
  exact amLookup_amInsert_self _ _ _

/-- Witness for C8 at a concrete unmatched `Rejected` message. -/
theorem vr_unmatched_record_creation_witness :
    (dateCheck c8wMsg.dateStr = .proceed ∧ (pvrOf c8wMsg).error = none ∧
      amLookup (([], []) : ProcState).1 (pKeyOf c8wMsg) = none) ∧
    (phase2Step [] "LinkedIn/Rejected" ([], []) c8wMsg
        = (amInsert (([], []) : ProcState).1 (pKeyOf c8wMsg)
             (newRecOf [] "LinkedIn/Rejected" c8wMsg),
           if lastSegment "LinkedIn/Rejected" = "Viewed" then
             (([], []) : ProcState).2 ++ [unmatchedFailureOf [] "LinkedIn/Rejected" c8wMsg]
           else (([], []) : ProcState).2) ∧
     amLookup (phase2Step [] "LinkedIn/Rejected" ([], []) c8wMsg).1 (pKeyOf c8wMsg)
        = some (newRecOf [] "LinkedIn/Rejected" c8wMsg)) :=
  ⟨⟨by decide, by decide, by decide⟩,
   vr_unmatched_record_creation [] "LinkedIn/Rejected" ([], []) c8wMsg
     (by decide) (by decide) (by decide)⟩

/-- C8 counterexample: for an unmatched message whose parsed location is
empty, the created record does not carry the parsed fields: its location
is the placeholder "Location not found in date range", not the parsed
(empty) location. -/
theorem vr_unmatched_location_placeholder :
    (pvrOf c8Msg).error = none ∧
    (pvrOf c8Msg).location = "" ∧
    amLookup (phase2Step [] "LinkedIn/Rejected" ([], []) c8Msg).1 (pKeyOf c8Msg)
      = some (newRecOf [] "LinkedIn/Rejected" c8Msg) ∧
    (newRecOf [] "LinkedIn/Rejected" c8Msg).location
      = "Location not found in date range" :=
  ⟨by decide, by decide, by decide, by decide⟩

/-- C3: when the plain-text body has a line containing the anchor phrase
and at least three non-empty lines after it, the Applied parser returns
those three lines, stripped, as Job Title / Company Name / Location; on
the spec's example body this yields the record with company "Acme Corp",
title "Software Engineer", location "Remote" and status "Applied". -/
theorem applied_parser_extracts_three_lines :
    (∀ body i jt cn loc rest,
      (pySplitlines body).findIdx? (fun line => isSub appliedAnchor line) = some i →
      ((pySplitlines body).drop (i + 1)).filterMap stripNonEmpty
        = jt :: cn :: loc :: rest →
      parse_applied_info body = .ok ⟨jt, cn, loc⟩) ∧
    parse_applied_info c3Body = .ok ⟨"Software Engineer", "Acme Corp", "Remote"⟩ ∧
    runPhase1 [c3Msg] ([], [])
      = ([((("acme corp", "software engineer") : AppKey), c3Rec)], []) := by
  refine ⟨?_, rfl, rfl⟩
  intro body i jt cn loc rest hidx hrel
  have hmem : ∀ x ∈ ((pySplitlines body).drop (i + 1)).filterMap stripNonEmpty,
      x ≠ "" := by
    intro x hx
    obtain ⟨a, _, ha⟩ := List.mem_filterMap.mp hx
    simp only [stripNonEmpty] at ha
    by_cases hs : pyStrip a = ""
    · rw [if_pos hs] at ha
      exact Option.noConfusion ha
    · rw [if_neg hs] at ha
      cases Option.some.inj ha
      exact hs
  have hjt : jt ≠ "" := hmem jt (by rw [hrel]; exact List.mem_cons_self _ _)
  have hcn : cn ≠ "" := hmem cn
    (by rw [hrel]; exact List.mem_cons_of_mem _ (List.mem_cons_self _ _))
  have hloc : loc ≠ "" := hmem loc
    (by rw [hrel]; exact List.mem_cons_of_mem _ (List.mem_cons_of_mem _
      (List.mem_cons_self _ _)))
  simp only [parse_applied_info, hidx, hrel]
  rw [if_pos ⟨hjt, hcn, hloc⟩]

/-- Witness for C3 at the spec's example body. -/
theorem applied_parser_extracts_three_lines_witness :
    ((pySplitlines c3Body).findIdx? (fun line => isSub appliedAnchor line) = some 1 ∧
     ((pySplitlines c3Body).drop 2).filterMap stripNonEmpty
        = ["Software Engineer", "Acme Corp", "Remote", "Thanks"]) ∧
    parse_applied_info c3Body = .ok ⟨"Software Engineer", "Acme Corp", "Remote"⟩ :=
  ⟨⟨by decide, by decide⟩,
   applied_parser_extracts_three_lines.1 c3Body 1 "Software Engineer" "Acme Corp"
     "Remote" ["Thanks"] (by decide) (by decide)⟩

/-- C4: an Applied body whose anchor line is followed by only two
non-empty lines fails with the `MissingFieldError` message naming
"Location" (and the other two fields, which the code also leaves
unresolved in that case); in phase 1 such a failing message appends
exactly one failure row, leaves the applications map untouched, and the
loop continues with the remaining messages from that state. -/
theorem applied_missing_location_failure :
    (∀ body i jt cn,
      (pySplitlines body).findIdx? (fun line => isSub appliedAnchor line) = some i →
      ((pySplitlines body).drop (i + 1)).filterMap stripNonEmpty = [jt, cn] →
      parse_applied_info body = .error c4Err ∧ isSub "Location" c4Err = true) ∧
    (∀ total st index (m : AppliedMsg) e,
      dateCheck m.dateStr = .proceed →
      get_plain_text_body m.mime ≠ "" →
      parse_applied_info (get_plain_text_body m.mime) = .error e →
      phase1Step total st (index, m)
        = (st.1, st.2 ++ [appliedFailure m index total e m.dateStr (phase1Subject m)
            (generate_comment (phase1Subject m))])) ∧
    (∀ (m : AppliedMsg) ms (st : ProcState),
      runPhase1 (m :: ms) st
        = (enumerateFrom 2 ms).foldl (phase1Step (ms.length + 1))
            (phase1Step (ms.length + 1) st (1, m))) := by
  refine ⟨?_, ?_, fun m ms st => rfl⟩
  · intro body i jt cn hidx hrel
    refine ⟨?_, by decide⟩
    simp only [parse_applied_info, hidx, hrel]
    rfl
  · intro total st index m e hdc hb hp
    simp only [phase1Step, hdc, hb, hp]
    rw [if_neg not_false]

/-- Witness for C4 at the concrete malformed body. -/
theorem applied_missing_location_failure_witness :
    ((pySplitlines c4Body).findIdx? (fun line => isSub appliedAnchor line) = some 0 ∧
     ((pySplitlines c4Body).drop 1).filterMap stripNonEmpty
        = ["Software Engineer", "Acme Corp"] ∧
     dateCheck c4Msg.dateStr = .proceed ∧ get_plain_text_body c4Msg.mime ≠ "") ∧
    (parse_applied_info c4Body = .error c4Err ∧ isSub "Location" c4Err = true) ∧
    phase1Step 5 ([], []) (2, c4Msg)
      = ((([], []) : ProcState).1, (([], []) : ProcState).2
          ++ [appliedFailure c4Msg 2 5 c4Err c4Msg.dateStr (phase1Subject c4Msg)
              (generate_comment (phase1Subject c4Msg))]) :=
  ⟨⟨by decide, by decide, by decide, by decide⟩,
   applied_missing_location_failure.1 c4Body 0 "Software Engineer" "Acme Corp"
     (by decide) (by decide),
   applied_missing_location_failure.2.1 5 ([], []) 2 c4Msg c4Err
     (by decide) (by decide) rfl⟩

end LinkedInJobParser
